import Mathlib

/-!
Verification of the MailBeacon discovery pipeline against its specification.

The Python sources under `backend/app/core` are shallowly embedded as Lean
definitions: pure string manipulation becomes functions on `String`
(implemented over `String.data` character lists so that everything reduces),
network interactions (DNS queries, SMTP dialogs) become explicit outcome
values fed to the translated control flow, and Python exceptions become
`Except` results.  Each claim of the specification is then stated and proved
(or refuted) about these definitions.
-/

namespace MailBeacon

/-! ## String helpers

These model the Python string primitives used by the sources: `str.lower`
(ASCII range, which is all the sources rely on), substring containment
(`needle in hay`), `str.startswith`, `str.removeprefix`, `str.split` and
`str.rstrip`.  They are written over `String.data` lists so proofs and
concrete evaluation stay elementary. -/

/-- ASCII lowercasing of one character, as CPython does for the ASCII range. -/
def lowerChar (c : Char) : Char :=
  if 65 ≤ c.toNat ∧ c.toNat ≤ 90 then Char.ofNat (c.toNat + 32) else c

/-- Model of Python `str.lower()` (ASCII range). -/
def lowerStr (s : String) : String :=
  ⟨s.data.map lowerChar⟩

/-- Model of Python substring containment `needle in hay` on character lists. -/
def containsSub : List Char → List Char → Bool
  | h, n =>
    if n.isPrefixOf h then true
    else
      match h with
      | [] => false
      | _ :: t => containsSub t n

/-- Model of Python `hay.__contains__(needle)` for strings. -/
def containsStr (hay needle : String) : Bool :=
  containsSub hay.data needle.data

/-- Model of Python `s.startswith(p)`. -/
def hasPrefixStr (s p : String) : Bool :=
  p.data.isPrefixOf s.data

/-- Model of Python `s.removeprefix(p)` (case-sensitive, removes at most one copy). -/
def removePrefixStr (s p : String) : String :=
  if hasPrefixStr s p then ⟨s.data.drop p.data.length⟩ else s

/-- Characters of `s` strictly before the first character satisfying `p` fails. -/
def strTakeWhile (p : Char → Bool) (s : String) : String :=
  ⟨s.data.takeWhile p⟩

/-- Drop the first `n` characters of `s`. -/
def strDrop (s : String) (n : Nat) : String :=
  ⟨s.data.drop n⟩

/-- Model of Python `s.split(sep)[0]` for a single-character separator:
the text before the first occurrence (the whole string if absent). -/
def beforeFirst (c : Char) (s : String) : String :=
  ⟨s.data.takeWhile (fun x => x ≠ c)⟩

/-- Model of Python `s.split(sep, 1)[1]` for a single-character separator:
the text after the first occurrence (empty if absent, where Python would
instead fail to unpack; candidates always contain the separator). -/
def afterFirst (c : Char) (s : String) : String :=
  ⟨(s.data.dropWhile (fun x => x ≠ c)).drop 1⟩

/-- Model of Python `s.split(sep)[-1]` for a single-character separator:
the text after the last occurrence (the whole string if absent). -/
def afterLast (c : Char) (s : String) : String :=
  ⟨((s.data.reverse.takeWhile (fun x => x ≠ c))).reverse⟩

/-- Model of Python `s.rstrip(".")`: remove every trailing dot. -/
def stripTrailingDots (s : String) : String :=
  ⟨(s.data.reverse.dropWhile (fun x => x = '.')).reverse⟩

theorem charOfNat_toNat (n : Nat) (h : n.isValidChar) : (Char.ofNat n).toNat = n := by
  simp [Char.ofNat, h, Char.ofNatAux, Char.toNat, UInt32.toNat, BitVec.toNat_ofNatLt]

theorem lowerChar_idem (c : Char) : lowerChar (lowerChar c) = lowerChar c := by
  by_cases h : 65 ≤ c.toNat ∧ c.toNat ≤ 90
  · have hv : Nat.isValidChar (c.toNat + 32) := Or.inl (by omega)
    have h1 : lowerChar c = Char.ofNat (c.toNat + 32) := by
      unfold lowerChar
      rw [if_pos h]
    have h2 : (Char.ofNat (c.toNat + 32)).toNat = c.toNat + 32 := charOfNat_toNat _ hv
    rw [h1]
    unfold lowerChar
    rw [h2, if_neg (by omega)]
  · unfold lowerChar
    rw [if_neg h, if_neg h]

theorem lowerStr_idem (s : String) : lowerStr (lowerStr s) = lowerStr s := by
  unfold lowerStr
  refine congrArg String.mk ?_
  show (s.data.map lowerChar).map lowerChar = s.data.map lowerChar
  rw [List.map_map]
  exact List.map_congr_left (fun a _ => lowerChar_idem a)

/-! ## DNS resolution (`dns_utils.py`)

`_query_with_timeout` maps `aiodns` failures onto the exception taxonomy
`NxDomainError / NoDnsRecordsError / DnsTimeoutError / DnsError`; a DNS query
is therefore embedded as an already-mapped `Except DnsExc` value holding the
records on success.  `resolve_mail_server` and `resolve_a_record_fallback`
are then direct translations of the Python control flow, with `raise`/
`except` turned into `Except` plumbing: note that the `NoDnsRecordsError`
raised for an empty best exchange inside the `try` block of
`resolve_mail_server` is caught by its own `except NoDnsRecordsError`
handler, which triggers the A-record fallback. -/

/-- One MX answer record (aiodns gives `host` and `priority`). -/
structure MxRecord where
  host : String
  priority : Nat
deriving DecidableEq, Repr

/-- One A answer record. -/
structure ARecord where
  host : String
deriving DecidableEq, Repr

/-- A mail server identified via DNS (`MailServer` named tuple). -/
structure MailServer where
  exchange : String
  preference : Nat
deriving DecidableEq, Repr

/-- The DNS exception taxonomy of `app/exceptions.py`; all four are
subclasses of `DnsError` in the source, which the embedding records by
putting them in one type. -/
inductive DnsExc where
  | nxDomain (domain : String)
  | noDnsRecords (domain : String)
  | dnsTimeout (domain : String)
  | dnsError (message : String)
deriving DecidableEq, Repr

/-- Outcome of one already-mapped DNS query (`_query_with_timeout`). -/
abbrev DnsQuery (α : Type) := Except DnsExc α

/-- Translation of `resolve_a_record_fallback`: use the first A record with
sentinel preference 65535; `ARES_ENODATA` and the defensive empty-answer
branch both yield `NoDnsRecordsError`; other DNS errors re-raise. -/
def resolve_a_record_fallback (domain : String) (aRes : DnsQuery (List ARecord)) :
    DnsQuery MailServer :=
  match aRes with
  | .error e => .error e
  | .ok [] => .error (.noDnsRecords domain)
  | .ok (r :: _) => .ok ⟨r.host, 65535⟩

/-- Comparator used to model `mx_records.sort(key=lambda r: r.priority)`. -/
def mxLe (a b : MxRecord) : Bool :=
  a.priority ≤ b.priority

/-- Translation of `resolve_mail_server`: sort MX records by preference,
take the best, strip trailing dots; `NoDnsRecordsError` (from the MX query,
from the defensive empty-answer branch, or from the empty-exchange `raise`
inside the same `try`) triggers the A-record fallback; other DNS errors
propagate. -/
def resolve_mail_server (domain : String) (mxRes : DnsQuery (List MxRecord))
    (aRes : DnsQuery (List ARecord)) : DnsQuery MailServer :=
  match mxRes with
  | .error (.noDnsRecords _) => resolve_a_record_fallback domain aRes
  | .error e => .error e
  | .ok recs =>
      match recs.mergeSort mxLe with
      | [] => resolve_a_record_fallback domain aRes
      | best :: _ =>
          let exchange := stripTrailingDots best.host
          if exchange = "" then resolve_a_record_fallback domain aRes
          else .ok ⟨exchange, best.priority⟩

theorem mxLe_trans : ∀ a b c : MxRecord, mxLe a b = true → mxLe b c = true → mxLe a c = true := by
  intro a b c hab hbc
  simp only [mxLe, decide_eq_true_eq] at *
  omega

theorem mxLe_total : ∀ a b : MxRecord, (mxLe a b || mxLe b a) = true := by
  intro a b
  simp only [mxLe, Bool.or_eq_true, decide_eq_true_eq]
  omega

/-- C6 counterexample helper: the concrete MX answer whose best exchange is
bare dots, stripping to the empty string. -/
def c6mx : List MxRecord := [⟨".", 5⟩]

/-- C6 counterexample helper: the concrete A answer used by the fallback. -/
def c6a : List ARecord := [⟨"93.184.216.34"⟩]

/-- C6 (counterexample): with an MX answer whose lowest-preference exchange is
`"."` (empty after stripping the trailing dot) and an A record available,
`resolve_mail_server` does not raise `NoDnsRecords` as the claim states: the
empty-exchange `NoDnsRecordsError` is raised inside the `try` block, caught by
the function's own `except NoDnsRecordsError` handler, and converted into the
A-record fallback, which succeeds. -/
theorem resolve_mail_server_empty_exchange_counterexample :
    resolve_mail_server "example.com" (.ok c6mx) (.ok c6a)
      = .ok ⟨"93.184.216.34", 65535⟩ ∧
    resolve_mail_server "example.com" (.ok c6mx) (.ok c6a)
      ≠ .error (.noDnsRecords "example.com") := by
  have hs : c6mx.mergeSort mxLe = [⟨".", 5⟩] := List.mergeSort_singleton _
  constructor
  · simp [resolve_mail_server, hs, resolve_a_record_fallback, c6a,
      stripTrailingDots, c6mx]
  · simp [resolve_mail_server, hs, resolve_a_record_fallback, c6a,
      stripTrailingDots, c6mx]

/-- C6 (amended): `resolve_mail_server` returns the exchange of an MX record
with the lowest preference value, trailing dots stripped; an MX `NoData`
answer falls back to the A query, returning the first A address with
preference 65535 (`NoDnsRecords` if the A answer is empty, propagating other
A-query errors); NXDOMAIN raises `NxDomain`, a query timeout raises
`DnsTimeout`, and any other DNS error raises `DnsError`.  Amended from the
claim: an empty highest-priority exchange does not raise `NoDnsRecords`; it
triggers the same A-record fallback, because the `raise` is caught by the
function's own `except NoDnsRecordsError` handler. -/
theorem resolve_mail_server_policy (domain d : String)
    (aRes : DnsQuery (List ARecord)) (recs : List MxRecord)
    (best : MxRecord) (rest : List MxRecord) :
    resolve_mail_server domain (.error (.nxDomain d)) aRes = .error (.nxDomain d) ∧
    resolve_mail_server domain (.error (.dnsTimeout d)) aRes = .error (.dnsTimeout d) ∧
    resolve_mail_server domain (.error (.dnsError d)) aRes = .error (.dnsError d) ∧
    resolve_mail_server domain (.error (.noDnsRecords d)) aRes
      = resolve_a_record_fallback domain aRes ∧
    (∀ a arest, aRes = .ok (a :: arest) →
      resolve_a_record_fallback domain aRes = .ok ⟨a.host, 65535⟩) ∧
    (aRes = .ok [] →
      resolve_a_record_fallback domain aRes = .error (.noDnsRecords domain)) ∧
    (∀ e, aRes = .error e → resolve_a_record_fallback domain aRes = .error e) ∧
    (recs.mergeSort mxLe = best :: rest → stripTrailingDots best.host ≠ "" →
      resolve_mail_server domain (.ok recs) aRes
          = .ok ⟨stripTrailingDots best.host, best.priority⟩ ∧
        best ∈ recs ∧ ∀ r ∈ recs, best.priority ≤ r.priority) ∧
    (recs.mergeSort mxLe = best :: rest → stripTrailingDots best.host = "" →
      resolve_mail_server domain (.ok recs) aRes
        = resolve_a_record_fallback domain aRes) := by
  refine ⟨rfl, rfl, rfl, rfl, ?_, ?_, ?_, ?_, ?_⟩
  · intro a arest h
    subst h
    rfl
  · intro h
    subst h
    rfl
  · intro e h
    subst h
    rfl
  · intro hsort hne
    have hmem : best ∈ recs := by
      have : best ∈ recs.mergeSort mxLe := by
        rw [hsort]
        exact List.mem_cons_self _ _
      exact (List.mem_mergeSort).mp this
    have hmin : ∀ r ∈ recs, best.priority ≤ r.priority := by
      intro r hr
      have hr2 : r ∈ recs.mergeSort mxLe := (List.mem_mergeSort).mpr hr
      rw [hsort] at hr2
      rcases List.mem_cons.mp hr2 with h | h
      · subst h
        exact le_refl _
      · have hpw := List.sorted_mergeSort mxLe_trans mxLe_total recs
        rw [hsort] at hpw
        have := (List.pairwise_cons.mp hpw).1 r h
        simpa [mxLe] using this
    refine ⟨?_, hmem, hmin⟩
    simp only [resolve_mail_server, hsort]
    rw [if_neg hne]
  · intro hsort he
    simp only [resolve_mail_server, hsort]
    rw [if_pos he]

/-- C6 witness helper: a concrete MX answer, already in preference order. -/
def c6wmx : List MxRecord := [⟨"mx1.example.com.", 10⟩, ⟨"mx2.example.com", 20⟩]

/-- C6 witness: the amended policy theorem applied at a concrete MX answer
whose best record is `mx1.example.com.` with preference 10, stripping the
trailing dot. -/
theorem resolve_mail_server_policy_witness :
    resolve_mail_server "example.com" (.ok c6wmx) (.ok c6a)
      = .ok ⟨"mx1.example.com", 10⟩ := by
  have hsort : c6wmx.mergeSort mxLe = c6wmx :=
    List.mergeSort_of_sorted (by decide)
  have h := (resolve_mail_server_policy "example.com" "example.com" (.ok c6a)
      c6wmx ⟨"mx1.example.com.", 10⟩ [⟨"mx2.example.com", 20⟩]).2.2.2.2.2.2.2.1
      hsort (by decide)
  simpa [stripTrailingDots] using h.1

/-! ## SMTP verification (`smtp_utils.py`)

One SMTP attempt is embedded as a `Session` value describing how the dialog
unfolds: a pre-`MAIL FROM` failure (connect, EHLO, response exception,
timeout, socket error, or an unexpected exception that the code re-raises
as `SmtpError`), or a `MAIL FROM` reply followed by either a failure during
the target `RCPT TO` or its reply plus the outcome of the catch-all probe.
`_verify_single_attempt` becomes a total function from sessions to
`Except`-wrapped internal results, and `verify_email_with_retries` iterates
it over a stream of sessions. -/

/-- Internal SMTP verification outcome (`SmtpVerificationResultInternal`). -/
structure VResult where
  exists? : Option Bool
  message : String
  shouldRetry : Bool
  isCatchAll : Bool
deriving DecidableEq, Repr

/-- `SmtpVerificationResultInternal.conclusive` with the default catch-all flag. -/
def VResult.conclusive (b : Bool) (m : String) : VResult :=
  ⟨some b, m, false, false⟩

/-- `SmtpVerificationResultInternal.inconclusive_retry` with the default catch-all flag. -/
def VResult.inconclusiveRetry (m : String) : VResult :=
  ⟨none, m, true, false⟩

/-- `SmtpVerificationResultInternal.inconclusive_no_retry` with the default catch-all flag. -/
def VResult.inconclusiveNoRetry (m : String) : VResult :=
  ⟨none, m, false, false⟩

/-- A failure (exception) hit somewhere inside `_verify_single_attempt` and
handled by one of its `except` clauses; `unexpected` is re-raised as `SmtpError`. -/
inductive SmtpFailure where
  | connectFail (message : String)
  | heloFail (code : Nat) (message : String)
  | responseExc (code : Nat) (message : String)
  | timedOut
  | socketErr (message : String)
  | unexpected (message : String)
deriving DecidableEq, Repr

/-- What happens to the catch-all probe `RCPT TO` once it has been issued:
a reply, an `SMTPResponseException` (treated as a rejection), or any other
exception (ignored, leaving the flag clear). -/
inductive CatchAllStep where
  | reply (code : Nat) (message : String)
  | responseExc (code : Nat) (message : String)
  | otherExc (message : String)
deriving DecidableEq, Repr

/-- What happens after an accepted `MAIL FROM`: a failure during the target
`RCPT TO`, or its reply together with the catch-all probe outcome (the probe
outcome is consulted only when the target reply code is below 400). -/
inductive AfterMail where
  | fail (f : SmtpFailure)
  | reply (code : Nat) (message : String) (ca : CatchAllStep)
deriving DecidableEq, Repr

/-- One SMTP dialog as observed by `_verify_single_attempt`. -/
inductive Session where
  | invalidFormat
  | preFail (f : SmtpFailure)
  | mailFrom (code : Nat) (message : String) (rest : AfterMail)
deriving DecidableEq, Repr

/-- The 5xx rejection phrases scanned for in the target reply message. -/
def rejectionPhrases : List String :=
  ["unknown", "no such", "unavailable", "rejected", "doesn't exist",
   "disabled", "invalid address", "recipient not found", "user unknown",
   "mailbox unavailable", "no mailbox"]

/-- Translation of the `except` clauses of `_verify_single_attempt`
(`SMTPConnectError`, `SMTPHeloError`, `SMTPResponseException`,
`TimeoutError`, `OSError`, and the final re-raise of `SmtpError`). -/
def handleFailure : SmtpFailure → Except String VResult
  | .connectFail m =>
      if containsStr (lowerStr m) "timed out" || containsStr (lowerStr m) "connection refused" then
        .ok (VResult.inconclusiveNoRetry ("Connection failed (likely blocked): " ++ m))
      else .ok (VResult.inconclusiveRetry ("Connection failed: " ++ m))
  | .heloFail c m =>
      .ok (VResult.inconclusiveRetry ("HELO/EHLO failed: " ++ toString c ++ " " ++ m))
  | .responseExc c m =>
      if 400 ≤ c ∧ c < 500 then
        .ok (VResult.inconclusiveRetry ("SMTP Temp Failure (4xx): " ++ toString c ++ " " ++ m))
      else if 500 ≤ c then
        .ok (VResult.inconclusiveRetry ("SMTP Perm Failure? (5xx): " ++ toString c ++ " " ++ m))
      else .ok (VResult.inconclusiveRetry ("SMTP Response Error: " ++ toString c ++ " " ++ m))
  | .timedOut => .ok (VResult.inconclusiveRetry "SMTP operation timed out")
  | .socketErr m => .ok (VResult.inconclusiveRetry ("Socket error: " ++ m))
  | .unexpected m => .error ("SMTP Error: Unexpected SMTP error: " ++ m)

/-- Whether the catch-all probe was accepted: its reply code is below 400
(a response exception counts as a rejection, any other exception is ignored). -/
def caAccepted : CatchAllStep → Bool
  | .reply c _ => decide (c < 400)
  | .responseExc _ _ => false
  | .otherExc _ => false

/-- Translation of `_verify_single_attempt`: classify one SMTP dialog.
`.error` models the re-raised `SmtpError` for unexpected exceptions. -/
def verify_single_attempt : Session → Except String VResult
  | .invalidFormat => .ok (VResult.conclusive false "Invalid email format")
  | .preFail f => handleFailure f
  | .mailFrom code msg rest =>
      if 400 ≤ code then
        if containsStr (lowerStr msg) "starttls"
            || (containsStr (toString code) "530" && containsStr (lowerStr msg) "5.7.0") then
          .ok (VResult.inconclusiveRetry
            ("Server requires STARTTLS: " ++ toString code ++ " " ++ msg))
        else
          .ok (VResult.inconclusiveNoRetry
            ("MAIL FROM rejected: " ++ toString code ++ " " ++ msg))
      else
        match rest with
        | .fail f => handleFailure f
        | .reply tcode tmsg ca =>
            let isCA : Bool := decide (tcode < 400) && caAccepted ca
            if tcode < 300 then
              if isCA then
                .ok ⟨none, "SMTP accepted (Possible Catch-All): " ++ toString tcode ++ " " ++ tmsg,
                     true, true⟩
              else
                .ok ⟨some true, "SMTP Verification OK: " ++ toString tcode ++ " " ++ tmsg,
                     false, false⟩
            else if tcode < 400 then
              .ok (VResult.inconclusiveRetry
                ("SMTP Unexpected Intermediate Code: " ++ toString tcode ++ " " ++ tmsg))
            else if tcode < 500 then
              .ok (VResult.inconclusiveRetry
                ("SMTP Temp Failure/Greylisted? (4xx): " ++ toString tcode ++ " " ++ tmsg))
            else
              if (toString tcode = "550" || toString tcode = "551" || toString tcode = "553")
                  || rejectionPhrases.any (fun p => containsStr (lowerStr tmsg) p) then
                .ok (VResult.conclusive false
                  ("SMTP Rejected (User Likely Unknown): " ++ toString tcode ++ " " ++ tmsg))
              else
                .ok (VResult.conclusive false
                  ("SMTP Rejected (Policy/Other 5xx): " ++ toString tcode ++ " " ++ tmsg))

/-- The `RCPT TO` commands issued during one attempt, in dialog order:
the target address, then (only if the target reply code was below 400) the
random catch-all probe address. -/
def rcptTrace (email randomEmail : String) : Session → List String
  | .invalidFormat => []
  | .preFail _ => []
  | .mailFrom code _ rest =>
      if 400 ≤ code then []
      else
        match rest with
        | .fail _ => [email]
        | .reply tcode _ _ => if tcode < 400 then [email, randomEmail] else [email]

/-- The alphabet used by `_generate_random_local_part`
(`string.ascii_lowercase + string.digits`). -/
def randomChars : List Char := "abcdefghijklmnopqrstuvwxyz0123456789".data

theorem randomChars_length : randomChars.length = 36 := by decide

/-- Translation of `_generate_random_local_part`: twelve characters, each an
independent uniform choice from the 36-letter alphabet, here driven by an
explicit choice function. -/
def generate_random_local_part (pick : Nat → Fin 36) : String :=
  ⟨(List.range 12).map
    (fun i => randomChars.get ⟨(pick i).val, by rw [randomChars_length]; exact (pick i).isLt⟩)⟩

/-- Translation of `_get_mail_server`.  The source means to catch DNS
errors — `except (SmtpError, DnsError)` — and return `None`, but
`smtp_utils.py` never imports `DnsError`: Python evaluates the handler
tuple at exception time, so the moment `resolve_mail_server` raises any of
its DNS errors, the handler itself raises
`NameError: name 'DnsError' is not defined`, which propagates to the
caller.  The embedding therefore returns that exception as `.error`; the
`None` path the handler body was written for is unreachable. -/
def get_mail_server (domain : String) (mxRes : DnsQuery (List MxRecord))
    (aRes : DnsQuery (List ARecord)) : Except String MailServer :=
  match resolve_mail_server domain mxRes aRes with
  | .ok ms => .ok ms
  | .error _ => .error "NameError: name 'DnsError' is not defined"

/-- Loop state of `verify_email_with_retries`
(`last_result`, `last_message`, `is_catch_all`). -/
structure RunState where
  lastResult : Option Bool
  lastMessage : String
  isCatchAll : Bool
deriving DecidableEq, Repr

/-- The retry loop of `verify_email_with_retries`: run attempts until a
conclusive result, a non-retriable inconclusive result, a re-raised
`SmtpError`, or exhaustion of the attempt budget; returns the final state
and the number of attempts performed. -/
def runAttempts (sessions : Nat → Session) : Nat → Nat → RunState → RunState × Nat
  | 0, i, st => (st, i)
  | fuel + 1, i, st =>
      match verify_single_attempt (sessions i) with
      | .error e => ({ st with lastMessage := "Internal error during SMTP check: " ++ e }, i + 1)
      | .ok r =>
          let st2 : RunState := ⟨r.exists?, r.message, r.isCatchAll⟩
          if r.exists?.isSome then (st2, i + 1)
          else if r.shouldRetry then runAttempts sessions fuel (i + 1) st2
          else (st2, i + 1)

/-- Translation of `verify_email_with_retries`: resolve the mail server for
the domain after the last `@` of the address, then run the retry loop.
Because `_get_mail_server` raises `NameError` on DNS failure (see above)
instead of returning `None`, the `if not mail_server:` branch with its
`"SMTP check skipped (DNS lookup failed)"` triple is unreachable, and the
exception propagates out of this function, which has no handler around the
`_get_mail_server` call.  On the normal path the second component of the
`.ok` payload counts the attempts performed. -/
def verify_email_with_retries (email : String) (mxRes : DnsQuery (List MxRecord))
    (aRes : DnsQuery (List ARecord)) (sessions : Nat → Session) (maxAttempts : Nat) :
    Except String ((Option Bool × String × Bool) × Nat) :=
  match get_mail_server (afterLast '@' email) mxRes aRes with
  | .error e => .error e
  | .ok _ =>
      let res := runAttempts sessions maxAttempts 0
        ⟨none, "SMTP check did not run or complete", false⟩
      .ok ((res.1.lastResult, res.1.lastMessage, res.1.isCatchAll), res.2)

/-- All `RCPT TO` commands issued during a whole verification run of `n`
attempts. -/
def runRcptTrace (email : String) (randomEmails : Nat → String)
    (sessions : Nat → Session) (n : Nat) : List String :=
  (List.range n).flatMap (fun i => rcptTrace email (randomEmails i) (sessions i))

/-! ## Claims C1, C4 about the SMTP verifier -/

/-- C1 (code bug): the claim — like the specification — calls for the
inconclusive skip triple `(None, "SMTP check skipped (DNS lookup failed)",
False)` when DNS resolution fails, and the code plainly intends it (the
handler body returning `None` and the skip-message literal are both
present), but `smtp_utils.py` never imports `DnsError`, so the
`except (SmtpError, DnsError)` handler raises `NameError` at exception
time.  For each of the four DNS failure kinds (NXDOMAIN, timeout, other
DNS error, and no-records — here surfaced through the A-record fallback on
an empty answer), `verify_email_with_retries` at the failing input
`a@b.c` propagates the exception instead of returning the triple. -/
theorem dns_failure_raises_name_error :
    verify_email_with_retries "a@b.c" (.error (.nxDomain "b.c")) (.ok [])
        (fun _ => Session.invalidFormat) 2
      = .error "NameError: name 'DnsError' is not defined" ∧
    verify_email_with_retries "a@b.c" (.error (.dnsTimeout "b.c")) (.ok [])
        (fun _ => Session.invalidFormat) 2
      = .error "NameError: name 'DnsError' is not defined" ∧
    verify_email_with_retries "a@b.c" (.error (.dnsError "lookup failed")) (.ok [])
        (fun _ => Session.invalidFormat) 2
      = .error "NameError: name 'DnsError' is not defined" ∧
    verify_email_with_retries "a@b.c" (.error (.noDnsRecords "b.c")) (.ok [])
        (fun _ => Session.invalidFormat) 2
      = .error "NameError: name 'DnsError' is not defined" :=
  ⟨rfl, rfl, rfl, rfl⟩

/-- Whether the catch-all probe was issued in a session: `MAIL FROM`
accepted and target reply code below 400. -/
def catchAllSampleIssued : Session → Bool
  | .mailFrom code _ (.reply tcode _ _) => !decide (400 ≤ code) && decide (tcode < 400)
  | _ => false

/-- Whether the catch-all probe was issued and accepted with a reply code
below 400. -/
def catchAllSampleAccepted : Session → Bool
  | .mailFrom code _ (.reply tcode _ ca) =>
      !decide (400 ≤ code) && decide (tcode < 400) && caAccepted ca
  | _ => false

theorem handleFailure_not_conclusive (f : SmtpFailure) (r : VResult)
    (h : handleFailure f = .ok r) : r.exists? = none := by
  cases f <;>
    simp only [handleFailure] at h <;>
    (try split_ifs at h) <;>
    (try exact Except.noConfusion h) <;>
    (injection h with h2; rw [← h2]; rfl)

theorem verified_attempt_sample_rejected (s : Session) (r : VResult)
    (h : verify_single_attempt s = .ok r) (hv : r.exists? = some true) :
    catchAllSampleIssued s = true ∧ catchAllSampleAccepted s = false := by
  cases s with
  | invalidFormat =>
      simp only [verify_single_attempt, VResult.conclusive, Except.ok.injEq] at h
      rw [← h] at hv
      simp at hv
  | preFail f =>
      have := handleFailure_not_conclusive f r h
      rw [this] at hv
      cases hv
  | mailFrom code msg rest =>
      by_cases hc : 400 ≤ code
      · simp only [verify_single_attempt, if_pos hc] at h
        split_ifs at h <;>
          simp only [VResult.inconclusiveRetry, VResult.inconclusiveNoRetry,
            Except.ok.injEq] at h <;> (rw [← h] at hv; cases hv)
      · cases rest with
        | fail f =>
            simp only [verify_single_attempt, if_neg hc] at h
            have := handleFailure_not_conclusive f r h
            rw [this] at hv
            cases hv
        | reply tcode tmsg ca =>
            simp only [verify_single_attempt, if_neg hc] at h
            by_cases h3 : tcode < 300
            · rw [if_pos h3] at h
              by_cases hca : (decide (tcode < 400) && caAccepted ca) = true
              · simp only [hca, if_pos, if_true, Except.ok.injEq] at h
                rw [← h] at hv
                cases hv
              · simp only [hca, Bool.false_eq_true, if_false, if_neg, Except.ok.injEq] at h
                have h4 : tcode < 400 := by omega
                have hcaf : caAccepted ca = false := by
                  cases hb : caAccepted ca
                  · rfl
                  · exact absurd (by simp [hb, h4]) hca
                constructor
                · simp [catchAllSampleIssued, hc, h4]
                · simp [catchAllSampleAccepted, hcaf]
            · rw [if_neg h3] at h
              split_ifs at h <;>
                simp only [VResult.inconclusiveRetry, VResult.conclusive,
                  Except.ok.injEq] at h <;> (rw [← h] at hv; cases hv)

theorem runAttempts_conclusive (sessions : Nat → Session) (fuel : Nat) :
    ∀ (i : Nat) (st0 st : RunState) (used : Nat) (b : Bool),
    st0.lastResult = none →
    runAttempts sessions fuel i st0 = (st, used) →
    st.lastResult = some b →
    ∃ j, i ≤ j ∧ j < used ∧
      ∃ r, verify_single_attempt (sessions j) = .ok r ∧ r.exists? = some b := by
  induction fuel with
  | zero =>
      intro i st0 st used b h0 h hb
      simp only [runAttempts, Prod.mk.injEq] at h
      rw [← h.1, h0] at hb
      cases hb
  | succ fuel ih =>
      intro i st0 st used b h0 h hb
      simp only [runAttempts] at h
      cases hcl : verify_single_attempt (sessions i) with
      | error e =>
          rw [hcl] at h
          simp only [Prod.mk.injEq] at h
          rw [← h.1] at hb
          simp only [RunState.lastResult] at hb
          rw [h0] at hb
          cases hb
      | ok r =>
          rw [hcl] at h
          by_cases hs : r.exists?.isSome
          · simp only [hs, if_pos, if_true, Prod.mk.injEq] at h
            refine ⟨i, le_refl i, ?_, r, hcl, ?_⟩
            · omega
            · rw [← h.1] at hb
              exact hb
          · simp only [hs, Bool.false_eq_true, if_false, if_neg] at h
            by_cases hr : r.shouldRetry
            · rw [if_pos hr] at h
              have hnone : r.exists? = none := Option.not_isSome_iff_eq_none.mp hs
              obtain ⟨j, hj1, hj2, hrest⟩ :=
                ih (i + 1) ⟨r.exists?, r.message, r.isCatchAll⟩ st used b
                  (by simp [hnone]) h hb
              exact ⟨j, by omega, hj2, hrest⟩
            · rw [if_neg hr] at h
              simp only [Prod.mk.injEq] at h
              rw [← h.1] at hb
              simp only [RunState.lastResult] at hb
              rw [Option.not_isSome_iff_eq_none.mp hs] at hb
              cases hb

/-- C4 (amended): an attempt whose catch-all probe was accepted (reply code
below 400) is never classified as verified; when additionally the target
reply was 2xx, the attempt is exactly the inconclusive catch-all result with
`is_catch_all=true`; and a verified verdict from `verify_email_with_retries`
can only arise from an attempt whose catch-all probe was issued and
rejected.  Amended from the claim: when the target reply is 3xx the probe is
still issued, and an accepted probe then yields an inconclusive result whose
`is_catch_all` flag is `False`, not `True` (the 3xx branch discards the
flag), so the `is_catch_all=true` classification only covers 2xx targets. -/
theorem catch_all_blocks_verified (s : Session) (email : String)
    (mxRes : DnsQuery (List MxRecord)) (aRes : DnsQuery (List ARecord))
    (sessions : Nat → Session) (maxAttempts : Nat) :
    (∀ r, catchAllSampleAccepted s = true → verify_single_attempt s = .ok r →
      r.exists? ≠ some true) ∧
    (∀ code msg tcode tmsg ca, s = .mailFrom code msg (.reply tcode tmsg ca) →
      code < 400 → tcode < 300 → caAccepted ca = true →
      verify_single_attempt s
        = .ok ⟨none, "SMTP accepted (Possible Catch-All): " ++ toString tcode ++ " " ++ tmsg,
               true, true⟩) ∧
    (∀ out used,
      verify_email_with_retries email mxRes aRes sessions maxAttempts = .ok (out, used) →
      out.1 = some true →
      ∃ j, j < used ∧ ∃ r, verify_single_attempt (sessions j) = .ok r ∧
        r.exists? = some true ∧ catchAllSampleIssued (sessions j) = true ∧
        catchAllSampleAccepted (sessions j) = false) := by
  refine ⟨?_, ?_, ?_⟩
  · intro r hacc hok hv
    have := (verified_attempt_sample_rejected s r hok hv).2
    rw [hacc] at this
    cases this
  · intro code msg tcode tmsg ca hs hcode htc hca
    subst hs
    have hc : ¬ 400 ≤ code := by omega
    have h4 : tcode < 400 := by omega
    simp [verify_single_attempt, hc, htc, h4, hca]
  · intro out used h hv
    cases hg : get_mail_server (afterLast '@' email) mxRes aRes with
    | error e =>
        simp only [verify_email_with_retries, hg] at h
        exact Except.noConfusion h
    | ok ms =>
        simp only [verify_email_with_retries, hg] at h
        injection h with hpair
        injection hpair with h1 h2
        subst h1
        subst h2
        simp only at hv
        have hpairEq : runAttempts sessions maxAttempts 0
            ⟨none, "SMTP check did not run or complete", false⟩
            = ((runAttempts sessions maxAttempts 0
                ⟨none, "SMTP check did not run or complete", false⟩).1,
               (runAttempts sessions maxAttempts 0
                ⟨none, "SMTP check did not run or complete", false⟩).2) := rfl
        obtain ⟨j, _, hj2, r, hr1, hr2⟩ :=
          runAttempts_conclusive sessions maxAttempts 0
            ⟨none, "SMTP check did not run or complete", false⟩ _ _ true rfl hpairEq hv
        obtain ⟨hiss, hrej⟩ := verified_attempt_sample_rejected (sessions j) r hr1 hr2
        exact ⟨j, by omega, r, hr1, hr2, hiss, hrej⟩

/-- C4 counterexample session: `MAIL FROM` accepted, target `RCPT TO`
answered 350 (3xx), catch-all probe accepted with 250. -/
def c4s : Session :=
  .mailFrom 250 "ok" (.reply 350 "unexpected intermediate" (.reply 250 "ok"))

/-- C4 (counterexample to the claim as stated): in a session whose catch-all
probe is accepted with a reply code below 400 but whose target reply is 3xx,
the attempt is classified inconclusive with `is_catch_all=false`, not
`is_catch_all=true` as the claim asserts for every such attempt. -/
theorem catch_all_flag_counterexample :
    catchAllSampleAccepted c4s = true ∧
    (∃ r, verify_single_attempt c4s = .ok r ∧ r.exists? = none ∧ r.isCatchAll = false) := by
  refine ⟨rfl, ⟨VResult.inconclusiveRetry
    ("SMTP Unexpected Intermediate Code: " ++ toString 350 ++ " " ++ "unexpected intermediate"),
    rfl, rfl, rfl⟩⟩

/-- C4 witness: the amended theorem applied to a concrete 2xx-plus-accepted-
probe session, showing the inconclusive catch-all classification. -/
theorem catch_all_blocks_verified_witness :
    verify_single_attempt (.mailFrom 250 "ok" (.reply 250 "accepted" (.reply 250 "also")))
      = .ok ⟨none, "SMTP accepted (Possible Catch-All): " ++ toString 250 ++ " " ++ "accepted",
             true, true⟩ :=
  (catch_all_blocks_verified (.mailFrom 250 "ok" (.reply 250 "accepted" (.reply 250 "also")))
      "a@b.c" (.ok []) (.ok []) (fun _ => Session.invalidFormat) 1).2.1
    250 "ok" 250 "accepted" (.reply 250 "also") rfl (by omega) (by omega) rfl

/-! ## Claims C7, C10 about the SMTP dialog shape -/

/-- Whether the target `RCPT TO` was answered with a 2xx code (after an
accepted `MAIL FROM`), as the claim words the probe condition. -/
def targetAccepted2xx : Session → Bool
  | .mailFrom code _ (.reply tcode _ _) => !decide (400 ≤ code) && decide (tcode < 300)
  | _ => false

/-- C7 counterexample session: target `RCPT TO` answered 350 (3xx, not 2xx),
yet the probe is issued because the code tests `target_code < 400`. -/
def c7s : Session := .mailFrom 250 "ok" (.reply 350 "intermediate" (.reply 550 "no"))

/-- C7 (counterexample to the claim as stated): with a 350 reply to the
target `RCPT TO` — not a 2xx code — the catch-all probe is still issued,
because `_verify_single_attempt` guards the probe with `target_code < 400`
rather than a 2xx test. -/
theorem catch_all_probe_counterexample :
    rcptTrace "jane@x.com" "k3x9q2m4p7w1@x.com" c7s
      = ["jane@x.com", "k3x9q2m4p7w1@x.com"] ∧
    targetAccepted2xx c7s = false := ⟨rfl, rfl⟩

/-- C7 (amended): in one attempt, the catch-all probe `RCPT TO` (whose local
part is twelve characters drawn from the lowercase-alphanumeric alphabet) is
issued exactly when the target `RCPT TO` returned a reply code below 400 —
2xx or 3xx, amended from the claim's "a 2xx code" — and the trace shape
shows it always follows, never precedes, the target `RCPT TO`. -/
theorem catch_all_probe_follows_target (s : Session) (email rnd : String)
    (pick : Nat → Fin 36) :
    (rcptTrace email rnd s = [] ∨ rcptTrace email rnd s = [email] ∨
      rcptTrace email rnd s = [email, rnd]) ∧
    (rcptTrace email rnd s = [email, rnd] ↔ catchAllSampleIssued s = true) ∧
    (generate_random_local_part pick).length = 12 ∧
    (∀ c, c ∈ (generate_random_local_part pick).data → c ∈ randomChars) := by
  refine ⟨?_, ⟨?_, ?_⟩, ?_, ?_⟩
  · cases s with
    | invalidFormat => exact Or.inl rfl
    | preFail f => exact Or.inl rfl
    | mailFrom code msg rest =>
        by_cases hc : 400 ≤ code
        · simp [rcptTrace, hc]
        · cases rest with
          | fail f => simp [rcptTrace, hc]
          | reply tcode tmsg ca =>
              by_cases ht : tcode < 400
              · simp [rcptTrace, hc, ht]
              · simp [rcptTrace, hc, ht]
  · intro h
    cases s with
    | invalidFormat => exact absurd h (by simp [rcptTrace])
    | preFail f => exact absurd h (by simp [rcptTrace])
    | mailFrom code msg rest =>
        by_cases hc : 400 ≤ code
        · exact absurd h (by simp [rcptTrace, hc])
        · cases rest with
          | fail f => exact absurd h (by simp [rcptTrace, hc])
          | reply tcode tmsg ca =>
              by_cases ht : tcode < 400
              · simp [catchAllSampleIssued, hc, ht]
              · exact absurd h (by simp [rcptTrace, hc, ht])
  · intro h
    cases s with
    | invalidFormat => exact absurd h (by simp [catchAllSampleIssued])
    | preFail f => exact absurd h (by simp [catchAllSampleIssued])
    | mailFrom code msg rest =>
        cases rest with
        | fail f => exact absurd h (by simp [catchAllSampleIssued])
        | reply tcode tmsg ca =>
            simp only [catchAllSampleIssued, Bool.and_eq_true, Bool.not_eq_eq_eq_not,
              decide_eq_true_eq] at h
            have hc : ¬ 400 ≤ code := by
              rcases h with ⟨h1, _⟩
              simpa using h1
            have ht : tcode < 400 := by
              rcases h with ⟨_, h2⟩
              exact h2
            simp [rcptTrace, hc, ht]
  · simp only [generate_random_local_part, String.length]
    simp
  · intro c hc
    simp only [generate_random_local_part] at hc
    simp only [List.mem_map, List.mem_range] at hc
    obtain ⟨i, _, hi⟩ := hc
    rw [← hi]
    exact List.get_mem _ _ _

/-- C7 witness: the amended theorem applied to a concrete 2xx dialog: the
probe is issued and the random local part has the required shape. -/
theorem catch_all_probe_follows_target_witness :
    rcptTrace "jane@x.com" "abc@x.com"
        (.mailFrom 250 "ok" (.reply 250 "yes" (.reply 550 "no")))
      = ["jane@x.com", "abc@x.com"] ∧
    (generate_random_local_part (fun _ => ⟨7, by omega⟩)).length = 12 :=
  ⟨(catch_all_probe_follows_target
      (.mailFrom 250 "ok" (.reply 250 "yes" (.reply 550 "no"))) "jane@x.com" "abc@x.com"
      (fun _ => ⟨7, by omega⟩)).2.1.mpr rfl,
   (catch_all_probe_follows_target
      (.mailFrom 250 "ok" (.reply 250 "yes" (.reply 550 "no"))) "jane@x.com" "abc@x.com"
      (fun _ => ⟨7, by omega⟩)).2.2.1⟩

set_option maxRecDepth 4000 in
theorem contains530_iff :
    ∀ c : Nat, c < 1000 → 400 ≤ c → (containsStr (toString c) "530" = true ↔ c = 530) := by
  decide

/-- C10: when `MAIL FROM` is answered with a code in `[400, 1000)` (SMTP
reply codes have three digits) whose text does not indicate STARTTLS — the
lowercased message does not contain `"starttls"` and it is not code 530
with `"5.7.0"` in the message — `_verify_single_attempt` returns the
non-retriable inconclusive `MAIL FROM rejected` result, no `RCPT TO` is
issued, and the retry loop stops after this single attempt with an
inconclusive (None) verdict. -/
theorem mail_from_rejected_stops (code : Nat) (msg : String) (rest : AfterMail)
    (sessions : Nat → Session) (email rnd : String)
    (mxRes : DnsQuery (List MxRecord)) (aRes : DnsQuery (List ARecord))
    (ms : MailServer) (maxAttempts : Nat)
    (h1 : 400 ≤ code) (h2 : code < 1000)
    (h3 : containsStr (lowerStr msg) "starttls" = false)
    (h4 : ¬(code = 530 ∧ containsStr (lowerStr msg) "5.7.0" = true))
    (hs : sessions 0 = .mailFrom code msg rest)
    (hdns : get_mail_server (afterLast '@' email) mxRes aRes = .ok ms)
    (hma : 1 ≤ maxAttempts) :
    verify_single_attempt (.mailFrom code msg rest)
      = .ok (VResult.inconclusiveNoRetry
          ("MAIL FROM rejected: " ++ toString code ++ " " ++ msg)) ∧
    rcptTrace email rnd (.mailFrom code msg rest) = [] ∧
    verify_email_with_retries email mxRes aRes sessions maxAttempts
      = .ok ((none, "MAIL FROM rejected: " ++ toString code ++ " " ++ msg, false), 1) := by
  have hcond : (containsStr (lowerStr msg) "starttls"
      || (containsStr (toString code) "530" && containsStr (lowerStr msg) "5.7.0")) = false := by
    rw [h3, Bool.false_or]
    cases hc57 : containsStr (lowerStr msg) "5.7.0" with
    | false => rw [Bool.and_false]
    | true =>
        have hne : code ≠ 530 := fun hx => h4 ⟨hx, hc57⟩
        have : containsStr (toString code) "530" = false := by
          cases hx : containsStr (toString code) "530" with
          | false => rfl
          | true => exact absurd ((contains530_iff code h2 h1).mp hx) hne
        rw [this, Bool.false_and]
  have hcl : verify_single_attempt (.mailFrom code msg rest)
      = .ok (VResult.inconclusiveNoRetry
          ("MAIL FROM rejected: " ++ toString code ++ " " ++ msg)) := by
    simp [verify_single_attempt, h1, hcond]
  refine ⟨hcl, by simp [rcptTrace, h1], ?_⟩
  obtain ⟨k, rfl⟩ : ∃ k, maxAttempts = k + 1 := ⟨maxAttempts - 1, by omega⟩
  simp only [verify_email_with_retries, hdns, runAttempts, hs, hcl]
  simp [VResult.inconclusiveNoRetry]

/-- C10 witness: a concrete 450 `MAIL FROM` rejection with an unrelated
message; DNS succeeds via the A-record fallback. -/
theorem mail_from_rejected_stops_witness :
    verify_email_with_retries "a@b.c" (.error (.noDnsRecords "b.c")) (.ok [⟨"1.2.3.4"⟩])
        (fun _ => .mailFrom 450 "mailbox busy" (.reply 250 "x" (.reply 250 "y"))) 3
      = .ok ((none, "MAIL FROM rejected: " ++ toString 450 ++ " " ++ "mailbox busy", false), 1) :=
  (mail_from_rejected_stops 450 "mailbox busy" (.reply 250 "x" (.reply 250 "y"))
    (fun _ => .mailFrom 450 "mailbox busy" (.reply 250 "x" (.reply 250 "y")))
    "a@b.c" "" (.error (.noDnsRecords "b.c")) (.ok [⟨"1.2.3.4"⟩]) ⟨"1.2.3.4", 65535⟩ 3
    (by omega) (by omega) (by decide) (by decide) rfl rfl (by omega)).2.2

/-! ## Discovery orchestrator (`beacon.py`)

`find_email` is embedded as a pure function over: settings (generic-local
set, email-regex predicate, thresholds, sleep range), the generated pattern
list, the raw scraped list, an SMTP oracle mapping a candidate to the
outcome of `verify_email_with_retries` (or to an exception), and an
explicit stream of uniform draws for the sleeps.  The per-candidate scoring
of lines 169-248 is split into `base_confidence` / `adjust_confidence` /
`final_confidence` so the scoring formula can be compared with the
specification's. -/

/-- Provenance flags of one candidate, as computed in the `find_email` loop. -/
structure CandidateFlags where
  isPattern : Bool
  isScraped : Bool
  isGeneric : Bool
  matchesPrimaryDomain : Bool
  nameInEmail : Bool
deriving DecidableEq, Repr

/-- The base-confidence computation of `find_email` (additive evidence
points followed by the generic penalty `if`/`elif`). -/
def base_confidence (f : CandidateFlags) : Nat :=
  let c1 := if f.isPattern && f.nameInEmail then 0 + 3 else 0
  let c2 := if f.isScraped && f.nameInEmail then c1 + 5 else c1
  let c3 := if f.isScraped && !f.nameInEmail then c2 + 2 else c2
  let c4 := if f.isPattern && !f.nameInEmail then c3 + 1 else c3
  let c5 := if f.matchesPrimaryDomain then c4 + 1 else c4
  if f.isGeneric then
    if f.nameInEmail && decide (1 < c5) then max 1 (c5 - 5)
    else if !f.nameInEmail && decide (2 < c5) then max 1 (c5 - 2)
    else c5
  else c5

/-- Outcome of the optional SMTP verification step as seen by the scoring
code: not run, or run with a status and catch-all flag. -/
inductive SmtpAdjust where
  | notRun
  | ran (status : Option Bool) (isCatchAll : Bool)
deriving DecidableEq, Repr

/-- The post-verification confidence adjustment of `find_email`
(verified `+5`, rejected `:= 0`, inconclusive `+0`/`+1` by catch-all). -/
def adjust_confidence (c : Nat) : SmtpAdjust → Nat
  | .notRun => c
  | .ran (some true) _ => c + 5
  | .ran (some false) _ => 0
  | .ran none ca => c + (if ca then 0 else 1)

/-- The final clamped confidence of one candidate
(`max(0, min(10, confidence))`). -/
def final_confidence (f : CandidateFlags) (o : SmtpAdjust) : Nat :=
  max 0 (min 10 (adjust_confidence (base_confidence f) o))

/-- The confidence formula exactly as the specification words it: a sum of
evidence points, then the generic penalty, then the verification adjustment,
then the clamp to `[0, 10]`. -/
def specConfidence (f : CandidateFlags) (o : SmtpAdjust) : Nat :=
  let c := (if f.isPattern ∧ f.nameInEmail then 3 else 0)
    + (if f.isScraped ∧ f.nameInEmail then 5 else 0)
    + (if f.isScraped ∧ ¬f.nameInEmail then 2 else 0)
    + (if f.isPattern ∧ ¬f.nameInEmail then 1 else 0)
    + (if f.matchesPrimaryDomain then 1 else 0)
  let c :=
    if f.isGeneric ∧ f.nameInEmail ∧ 1 < c then max 1 (c - 5)
    else if f.isGeneric ∧ ¬f.nameInEmail ∧ 2 < c then max 1 (c - 2)
    else c
  let c :=
    match o with
    | .notRun => c
    | .ran (some true) _ => c + 5
    | .ran (some false) _ => 0
    | .ran none true => c
    | .ran none false => c + 1
  min 10 c

/-- C2: for every candidate assessed by `find_email`, the confidence used
for its record is computed exactly as the specification states: evidence
points (+3 pattern-with-name, +5 scraped-with-name, +2 scraped-without-name,
+1 pattern-without-name, +1 primary domain), the generic penalty
(`max(1, c-5)` when the name is in the local part and `c > 1`, else
`max(1, c-2)` when it is not and `c > 2`), the verification adjustment
(+5 verified, reset to 0 rejected, +1 inconclusive without catch-all, +0
with), and the final clamp to `[0, 10]`. -/
theorem confidence_formula_matches_spec (f : CandidateFlags) (o : SmtpAdjust) :
    final_confidence f o = specConfidence f o := by
  obtain ⟨p, s, g, m, n⟩ := f
  cases o with
  | notRun => revert p s g m n; decide
  | ran st ca =>
      cases st with
      | none => revert p s g m n ca; decide
      | some b => revert p s g m n ca b; decide

/-- The settings fields consumed by `find_email` (the email regex becomes an
abstract predicate, since it is configuration). -/
structure BSettings where
  genericLocals : List String
  emailOk : String → Bool
  confidenceThreshold : Nat
  genericConfidenceThreshold : Nat
  minSleep : ℚ
  maxSleep : ℚ

/-- Translation of `is_generic_prefix`: the lowercased text before the first
`@` is in the configured generic set. -/
def is_generic_local (st : BSettings) (email : String) : Bool :=
  st.genericLocals.contains (lowerStr (beforeFirst '@' email))

/-- One found-email record (`FoundEmailData`). -/
structure FoundEmailData where
  email : String
  confidence : Nat
  source : String
  isGeneric : Bool
  verificationStatus : Option Bool
  verificationMessage : String
deriving DecidableEq, Repr

/-- The result fields of `find_email` relevant here (`EmailResult`). -/
structure EmailResult where
  foundEmails : List FoundEmailData
  mostLikelyEmail : Option String
  confidenceScore : Nat
deriving Repr

/-- The scraped-email filter of step 2: keep addresses ending in
`@domain` or with a generic local part. -/
def scrapedFilter (st : BSettings) (domain : String) (raw : List String) : List String :=
  raw.filter (fun e => ("@" ++ domain).data.isSuffixOf e.data || is_generic_local st e)

/-- Whether the first or last name occurs in the local part, as used both
for candidate ordering and for the `name_in_email` flag. -/
def nameInLocal (firstLower lastLower e : String) : Bool :=
  containsStr (beforeFirst '@' e) firstLower || containsStr (beforeFirst '@' e) lastLower

/-- Translation of the `add_candidate` closure: lowercase, skip if seen,
else record in the seen set and append. -/
def addCandidate (st : List String × List String) (email : String) :
    List String × List String :=
  let el := lowerStr email
  if st.1.contains el then st else (el :: st.1, st.2 ++ [el])

/-- Step 3 of `find_email`: partition patterns and scraped addresses into
name-in-local and other, concatenate in that priority order, and deduplicate
case-insensitively preserving first occurrence. -/
def buildCandidates (firstLower lastLower : String) (patterns scraped : List String) :
    List String :=
  let nf := nameInLocal firstLower lastLower
  let ordered := patterns.filter nf ++ scraped.filter nf
    ++ patterns.filter (fun e => !nf e) ++ scraped.filter (fun e => !nf e)
  (ordered.foldl addCandidate ([], [])).2

/-- The loop context of `find_email` step 4. -/
structure BCtx where
  st : BSettings
  firstLower : String
  lastLower : String
  domain : String
  patterns : List String
  scraped : List String

/-- The provenance flags computed for one candidate in the loop. -/
def candidateFlags (ctx : BCtx) (email : String) : CandidateFlags :=
  { isPattern := ctx.patterns.contains email
    isScraped := ctx.scraped.contains email
    isGeneric := is_generic_local ctx.st email
    matchesPrimaryDomain := decide (afterFirst '@' email = ctx.domain)
    nameInEmail := nameInLocal ctx.firstLower ctx.lastLower email }

/-- The domain filter: skip a candidate off the primary domain unless it is
a scraped generic. -/
def domainSkip (f : CandidateFlags) : Bool :=
  !f.matchesPrimaryDomain && !(f.isScraped && f.isGeneric)

/-- The verification gate: base confidence at least 3, or scraped with the
name in the local part and base confidence above 1. -/
def shouldVerifySmtp (f : CandidateFlags) : Bool :=
  decide (3 ≤ base_confidence f)
    || (f.isScraped && f.nameInEmail && decide (1 < base_confidence f))

/-- Outcome of one `verify_email_with_retries` invocation as seen by the
orchestrator: a normal return, or one of the two caught exception kinds. -/
inductive SmtpCall where
  | ret (status : Option Bool) (message : String) (isCatchAll : Bool)
  | excSleuth (message : String)
  | excOther (message : String)
deriving DecidableEq, Repr

/-- The scoring adjustment resulting from one SMTP call (exceptions leave
the confidence unchanged). -/
def callAdjust : SmtpCall → SmtpAdjust
  | .ret st _ ca => .ran st ca
  | .excSleuth _ => .notRun
  | .excOther _ => .notRun

/-- The verification status recorded after one SMTP call. -/
def callStatus : SmtpCall → Option Bool
  | .ret st _ _ => st
  | .excSleuth _ => none
  | .excOther _ => none

/-- The verification message recorded after one SMTP call. -/
def callMessage : SmtpCall → String
  | .ret _ m _ => m
  | .excSleuth m => "SMTP Error: " ++ m
  | .excOther m => "Unexpected SMTP Error: " ++ m

/-- The record (if any) stored for one candidate that passed the regex and
domain filters: compute flags, optionally verify, score, clamp, and keep
only when the final confidence is positive. -/
def recordFor (ctx : BCtx) (smtp : String → SmtpCall) (email : String) :
    Option FoundEmailData :=
  let f := candidateFlags ctx email
  let sv := shouldVerifySmtp f
  let adj := if sv then callAdjust (smtp email) else .notRun
  let conf := final_confidence f adj
  if 0 < conf then
    some ⟨email, conf, if f.isScraped then "scraped" else "pattern", f.isGeneric,
      if sv then callStatus (smtp email) else none,
      if sv then callMessage (smtp email) else "Verification skipped (low initial confidence)"⟩
  else none

/-- Observable per-candidate events of the step-4 loop: a candidate entering
assessment (after the regex check), an SMTP verification, a sleep. -/
inductive BeaconEvent where
  | assessed (email : String)
  | smtpChecked (email : String)
  | slept (d : ℚ)
deriving DecidableEq, Repr

/-- The sleep duration: `random.uniform(min, max)` when `max > min`, else
`min`; the uniform draw is the explicit parameter `u`. -/
def sleepDuration (st : BSettings) (u : ℚ) : ℚ :=
  if st.minSleep < st.maxSleep then u else st.minSleep

/-- The step-4 loop of `find_email` over the candidate list, accumulating
records and events; `k` indexes the uniform draws consumed so far.
The sleep is executed only inside `if should_verify_smtp:`. -/
def runCandidates (ctx : BCtx) (smtp : String → SmtpCall) (draw : Nat → ℚ) :
    List String → Nat → List FoundEmailData × List BeaconEvent
  | [], _ => ([], [])
  | e :: rest, k =>
      if ctx.st.emailOk e = false then runCandidates ctx smtp draw rest k
      else
        let f := candidateFlags ctx e
        if domainSkip f then
          let res := runCandidates ctx smtp draw rest k
          (res.1, .assessed e :: res.2)
        else
          let sv := shouldVerifySmtp f
          let res := runCandidates ctx smtp draw rest (if sv then k + 1 else k)
          let here : List BeaconEvent :=
            .assessed e ::
              (if sv then [.smtpChecked e, .slept (sleepDuration ctx.st (draw k))] else [])
          ((match recordFor ctx smtp e with
            | some r => r :: res.1
            | none => res.1), here ++ res.2)

/-- First component of the Python sort key: confidence. -/
def keyC (e : FoundEmailData) : Nat := e.confidence

/-- Second component: `not is_generic` as 1/0 (non-generic ranks higher). -/
def keyG (e : FoundEmailData) : Nat := if e.isGeneric then 0 else 1

/-- Third component: `source == "scraped"` as 1/0 (scraped ranks higher). -/
def keyS (e : FoundEmailData) : Nat := if e.source = "scraped" then 1 else 0

/-- Comparator modelling the stable descending sort
`sort(key=(confidence, not is_generic, source=="scraped"), reverse=True)`:
`a` may stay before `b` when its key triple is lexicographically at least
that of `b`. -/
def recLe (a b : FoundEmailData) : Bool :=
  decide (keyC b < keyC a) ||
    (decide (keyC a = keyC b) &&
      (decide (keyG b < keyG a) || (decide (keyG a = keyG b) && decide (keyS b ≤ keyS a))))

/-- The step-5 sort of the surviving records. -/
def sortRecords (l : List FoundEmailData) : List FoundEmailData :=
  l.mergeSort recLe

/-- The step-5 selection on the sorted list: first non-generic record at or
above the confidence threshold; otherwise the top record if it meets the
threshold and, when generic, also the generic threshold. -/
def selectBest (st : BSettings) (l : List FoundEmailData) : Option FoundEmailData :=
  match l.find? (fun e => !e.isGeneric && decide (st.confidenceThreshold ≤ e.confidence)) with
  | some e => some e
  | none =>
      match l with
      | [] => none
      | top :: _ =>
          if st.confidenceThreshold ≤ top.confidence ∧
              (top.isGeneric = false ∨ st.genericConfidenceThreshold ≤ top.confidence) then
            some top
          else none

/-- Step 5 of `find_email`: sort, publish the sorted list, and select. -/
def step5 (st : BSettings) (l : List FoundEmailData) : EmailResult :=
  let sorted := sortRecords l
  match selectBest st sorted with
  | some e => ⟨sorted, some e.email, e.confidence⟩
  | none => ⟨sorted, none, 0⟩

/-- Translation of `find_email` (steps 2-5; pattern generation and scraping
results are inputs): filter the scraped list, assemble candidates, run the
per-candidate loop, sort and select.  Also returns the event trace. -/
def find_email (st : BSettings) (first last domain : String)
    (patterns scrapedRaw : List String) (smtp : String → SmtpCall) (draw : Nat → ℚ) :
    EmailResult × List BeaconEvent :=
  let firstLower := lowerStr first
  let lastLower := lowerStr last
  let scraped := scrapedFilter st domain scrapedRaw
  let ctx : BCtx := ⟨st, firstLower, lastLower, domain, patterns, scraped⟩
  let cands := buildCandidates firstLower lastLower patterns scraped
  let res := runCandidates ctx smtp draw cands 0
  (step5 st res.1, res.2)

/-! ## Claim C5: result invariants of `find_email` -/

theorem foldl_addCandidate_invariant (l : List String) :
    ∀ (seen acc : List String),
    (∀ a ∈ acc, a ∈ seen) → acc.Nodup → (∀ a ∈ acc, lowerStr a = a) →
    (∀ a ∈ (l.foldl addCandidate (seen, acc)).2, a ∈ (l.foldl addCandidate (seen, acc)).1) ∧
    (l.foldl addCandidate (seen, acc)).2.Nodup ∧
    (∀ a ∈ (l.foldl addCandidate (seen, acc)).2, lowerStr a = a) := by
  induction l with
  | nil =>
      intro seen acc h1 h2 h3
      exact ⟨h1, h2, h3⟩
  | cons e rest ih =>
      intro seen acc h1 h2 h3
      simp only [List.foldl_cons]
      by_cases hc : seen.contains (lowerStr e) = true
      · have : addCandidate (seen, acc) e = (seen, acc) := by
          simp only [addCandidate, hc, if_pos, if_true]
        rw [this]
        exact ih seen acc h1 h2 h3
      · have hnotin : lowerStr e ∉ seen := by
          simp only [List.contains] at hc
          intro hx
          exact hc (List.elem_iff.mpr hx)
        have : addCandidate (seen, acc) e = (lowerStr e :: seen, acc ++ [lowerStr e]) := by
          simp only [addCandidate]
          rw [if_neg hc]
        rw [this]
        refine ih _ _ ?_ ?_ ?_
        · intro a ha
          rcases List.mem_append.mp ha with h | h
          · exact List.mem_cons_of_mem _ (h1 a h)
          · rcases List.mem_singleton.mp h with rfl
            exact List.mem_cons_self _ _
        · refine List.Nodup.append h2 (List.nodup_singleton _) ?_
          intro a ha hb
          have heq := List.mem_singleton.mp hb
          subst heq
          exact hnotin (h1 _ ha)
        · intro a ha
          rcases List.mem_append.mp ha with h | h
          · exact h3 a h
          · rcases List.mem_singleton.mp h with rfl
            exact lowerStr_idem e

theorem nodup_lowered_pairwise (l : List String)
    (hlow : ∀ a ∈ l, lowerStr a = a) (hnd : l.Nodup) :
    l.Pairwise (fun a b => lowerStr a ≠ lowerStr b) := by
  induction l with
  | nil => exact List.Pairwise.nil
  | cons x t ih =>
      rw [List.pairwise_cons]
      rw [List.nodup_cons] at hnd
      refine ⟨?_, ih (fun a ha => hlow a (List.mem_cons_of_mem _ ha)) hnd.2⟩
      intro b hb heq
      have hx : lowerStr x = x := hlow x (List.mem_cons_self _ _)
      have hbl : lowerStr b = b := hlow b (List.mem_cons_of_mem _ hb)
      rw [hx, hbl] at heq
      exact hnd.1 (heq ▸ hb)

theorem buildCandidates_pairwise (firstLower lastLower : String)
    (patterns scraped : List String) :
    (buildCandidates firstLower lastLower patterns scraped).Pairwise
      (fun a b => lowerStr a ≠ lowerStr b) := by
  unfold buildCandidates
  obtain ⟨-, h2, h3⟩ := foldl_addCandidate_invariant
    (patterns.filter (nameInLocal firstLower lastLower)
      ++ scraped.filter (nameInLocal firstLower lastLower)
      ++ patterns.filter (fun e => !nameInLocal firstLower lastLower e)
      ++ scraped.filter (fun e => !nameInLocal firstLower lastLower e))
    [] [] (by simp) List.nodup_nil (by simp)
  exact nodup_lowered_pairwise _ h3 h2

theorem final_confidence_le (f : CandidateFlags) (o : SmtpAdjust) :
    final_confidence f o ≤ 10 := by
  unfold final_confidence
  omega

theorem recordFor_confidence (ctx : BCtx) (smtp : String → SmtpCall) (email : String)
    (r : FoundEmailData) (h : recordFor ctx smtp email = some r) :
    0 < r.confidence ∧ r.confidence ≤ 10 := by
  simp only [recordFor] at h
  split_ifs at h <;>
    first
      | exact Option.noConfusion h
      | (injection h with h2; rw [← h2]; exact ⟨by assumption, final_confidence_le _ _⟩)

theorem runCandidates_confidence (ctx : BCtx) (smtp : String → SmtpCall) (draw : Nat → ℚ)
    (cands : List String) :
    ∀ k, ∀ r ∈ (runCandidates ctx smtp draw cands k).1,
      0 < r.confidence ∧ r.confidence ≤ 10 := by
  induction cands with
  | nil =>
      intro k r hr
      simp [runCandidates] at hr
  | cons e rest ih =>
      intro k r hr
      simp only [runCandidates] at hr
      by_cases hok : ctx.st.emailOk e = false
      · rw [if_pos hok] at hr
        exact ih k r hr
      · rw [if_neg hok] at hr
        by_cases hskip : domainSkip (candidateFlags ctx e) = true
        · rw [if_pos hskip] at hr
          exact ih k r hr
        · rw [if_neg hskip] at hr
          simp only at hr
          cases hrf : recordFor ctx smtp e with
          | none =>
              rw [hrf] at hr
              exact ih _ r hr
          | some r0 =>
              rw [hrf] at hr
              rcases List.mem_cons.mp hr with h | h
              · exact h ▸ recordFor_confidence ctx smtp e r0 hrf
              · exact ih _ r h

theorem selectBest_mem (st : BSettings) (l : List FoundEmailData) (e : FoundEmailData)
    (h : selectBest st l = some e) : e ∈ l := by
  simp only [selectBest] at h
  cases hf : l.find? (fun e => !e.isGeneric && decide (st.confidenceThreshold ≤ e.confidence)) with
  | some x =>
      rw [hf] at h
      dsimp only at h
      injection h with h2
      exact h2 ▸ List.mem_of_find?_eq_some hf
  | none =>
      rw [hf] at h
      cases l with
      | nil => exact Option.noConfusion h
      | cons top t =>
          dsimp only at h
          split_ifs at h with hcond
          injection h with h2
          exact h2 ▸ List.mem_cons_self _ _

theorem step5_mostLikely_mem (st : BSettings) (l : List FoundEmailData) (m : String)
    (h : (step5 st l).mostLikelyEmail = some m) :
    ∃ r ∈ (step5 st l).foundEmails, r.email = m := by
  simp only [step5] at *
  cases hsel : selectBest st (sortRecords l) with
  | none =>
      rw [hsel] at h
      exact Option.noConfusion h
  | some e =>
      rw [hsel] at h
      dsimp only at h ⊢
      injection h with h2
      exact ⟨e, selectBest_mem st _ e hsel, h2⟩

/-- C5: in every result of `find_email`: the assembled candidate list has no
two entries equal under case-insensitive comparison; every record in
`found_emails` has confidence between 0 and 10 inclusive; and whenever
`most_likely_email` is set it is the email of some record in `found_emails`. -/
theorem find_email_invariants (st : BSettings) (first last domain : String)
    (patterns scrapedRaw : List String) (smtp : String → SmtpCall) (draw : Nat → ℚ) :
    (buildCandidates (lowerStr first) (lowerStr last) patterns
        (scrapedFilter st domain scrapedRaw)).Pairwise
      (fun a b => lowerStr a ≠ lowerStr b) ∧
    (∀ r ∈ (find_email st first last domain patterns scrapedRaw smtp draw).1.foundEmails,
      0 ≤ r.confidence ∧ r.confidence ≤ 10) ∧
    (∀ m, (find_email st first last domain patterns scrapedRaw smtp draw).1.mostLikelyEmail
        = some m →
      ∃ r ∈ (find_email st first last domain patterns scrapedRaw smtp draw).1.foundEmails,
        r.email = m) := by
  refine ⟨buildCandidates_pairwise _ _ _ _, ?_, ?_⟩
  · intro r hr
    simp only [find_email, step5] at hr
    have hr2 : r ∈ sortRecords (runCandidates
        ⟨st, lowerStr first, lowerStr last, domain, patterns,
          scrapedFilter st domain scrapedRaw⟩ smtp draw
        (buildCandidates (lowerStr first) (lowerStr last) patterns
          (scrapedFilter st domain scrapedRaw)) 0).1 := by
      revert hr
      cases hsel : selectBest st (sortRecords _) <;> intro hr <;> exact hr
    have hr3 := (List.mem_mergeSort).mp hr2
    have := runCandidates_confidence _ smtp draw _ 0 r hr3
    exact ⟨Nat.zero_le _, this.2⟩
  · intro m hm
    exact step5_mostLikely_mem st _ m hm

/-- C5 witness settings: empty generic set, all-accepting regex, default
thresholds 4 and 7, zero sleep range. -/
def c5st : BSettings := ⟨[], fun _ => true, 4, 7, 0, 0⟩

/-- C5 witness oracle: SMTP always verifies. -/
def c5smtp : String → SmtpCall := fun _ => .ret (some true) "SMTP Verification OK: 250 ok" false

/-- C5 witness: the invariants theorem applied to one pattern candidate that
verifies, selecting `alice@d.com`. -/
theorem find_email_invariants_witness :
    ∃ r ∈ (find_email c5st "alice" "smith" "d.com" ["alice@d.com"] [] c5smtp
        (fun _ => 0)).1.foundEmails,
      r.email = "alice@d.com" := by
  refine (find_email_invariants c5st "alice" "smith" "d.com" ["alice@d.com"] [] c5smtp
      (fun _ => 0)).2.2 "alice@d.com" ?_
  simp +decide [find_email, buildCandidates, nameInLocal, addCandidate, scrapedFilter,
    runCandidates, recordFor, candidateFlags, is_generic_local, domainSkip, shouldVerifySmtp,
    base_confidence, final_confidence, adjust_confidence, callAdjust, callStatus, callMessage,
    step5, sortRecords, selectBest, keyC, keyG, keyS, lowerStr, lowerChar, beforeFirst,
    afterFirst, containsStr, containsSub, sleepDuration, c5st, c5smtp, List.mergeSort_singleton]

/-! ## Claim C3: ranking and selection -/

theorem recLe_trans : ∀ a b c : FoundEmailData,
    recLe a b = true → recLe b c = true → recLe a c = true := by
  intro a b c h1 h2
  simp only [recLe, Bool.or_eq_true, Bool.and_eq_true, decide_eq_true_eq] at *
  omega

theorem recLe_total : ∀ a b : FoundEmailData, (recLe a b || recLe b a) = true := by
  intro a b
  simp only [recLe, Bool.or_eq_true, Bool.and_eq_true, decide_eq_true_eq]
  omega

/-- C3: `find_email` step 5 sorts the surviving records by the key
(confidence descending, non-generic before generic, scraped before pattern)
— expressed by `recLe` — and selects: the first non-generic survivor at or
above `confidence_threshold` if one exists; otherwise the overall first
survivor provided it meets `confidence_threshold` and is either non-generic
or also meets `generic_confidence_threshold`; otherwise no email and a zero
confidence score. -/
theorem ranking_and_selection (st : BSettings) (l : List FoundEmailData) :
    (step5 st l).foundEmails = sortRecords l ∧
    (sortRecords l).Pairwise (fun a b => recLe a b = true) ∧
    (sortRecords l).Perm l ∧
    (∀ e, (sortRecords l).find?
        (fun e => !e.isGeneric && decide (st.confidenceThreshold ≤ e.confidence)) = some e →
      (step5 st l).mostLikelyEmail = some e.email ∧
        (step5 st l).confidenceScore = e.confidence) ∧
    ((sortRecords l).find?
        (fun e => !e.isGeneric && decide (st.confidenceThreshold ≤ e.confidence)) = none →
      (sortRecords l = [] →
        (step5 st l).mostLikelyEmail = none ∧ (step5 st l).confidenceScore = 0) ∧
      (∀ top rest, sortRecords l = top :: rest →
        (st.confidenceThreshold ≤ top.confidence ∧
            (top.isGeneric = false ∨ st.genericConfidenceThreshold ≤ top.confidence) →
          (step5 st l).mostLikelyEmail = some top.email ∧
            (step5 st l).confidenceScore = top.confidence) ∧
        (¬(st.confidenceThreshold ≤ top.confidence ∧
            (top.isGeneric = false ∨ st.genericConfidenceThreshold ≤ top.confidence)) →
          (step5 st l).mostLikelyEmail = none ∧ (step5 st l).confidenceScore = 0))) := by
  refine ⟨?_, List.sorted_mergeSort recLe_trans recLe_total l, List.mergeSort_perm l recLe,
    ?_, ?_⟩
  · simp only [step5]
    cases hsel : selectBest st (sortRecords l) <;> rfl
  · intro e hfind
    have hsel : selectBest st (sortRecords l) = some e := by
      simp only [selectBest, hfind]
    simp [step5, hsel]
  · intro hfind
    constructor
    · intro hnil
      have hsel : selectBest st (sortRecords l) = none := by
        rw [hnil] at hfind ⊢
        simp only [selectBest, hfind]
      simp [step5, hsel]
    · intro top rest htr
      constructor
      · intro hcond
        have hsel : selectBest st (sortRecords l) = some top := by
          rw [htr] at hfind ⊢
          simp only [selectBest, hfind]
          rw [if_pos hcond]
        simp [step5, hsel]
      · intro hcond
        have hsel : selectBest st (sortRecords l) = none := by
          rw [htr] at hfind ⊢
          simp only [selectBest, hfind]
          rw [if_neg hcond]
        simp [step5, hsel]

/-- C3 witness record: a generic catch-style address with high confidence. -/
def c3a : FoundEmailData := ⟨"info@d.com", 9, "scraped", true, some true, "ok"⟩

/-- C3 witness record: a non-generic address with moderate confidence. -/
def c3b : FoundEmailData := ⟨"jane@d.com", 5, "pattern", false, none, "skip"⟩

/-- C3 witness: although the generic record sorts first (confidence 9 vs 5),
selection picks the first non-generic survivor above the threshold. -/
theorem ranking_and_selection_witness :
    (step5 c5st [c3a, c3b]).mostLikelyEmail = some "jane@d.com" := by
  have hsorted : sortRecords [c3a, c3b] = [c3a, c3b] :=
    List.mergeSort_of_sorted (by decide)
  have hfind : (sortRecords [c3a, c3b]).find?
      (fun e => !e.isGeneric && decide (c5st.confidenceThreshold ≤ e.confidence)) = some c3b := by
    rw [hsorted]
    decide
  exact ((ranking_and_selection c5st [c3a, c3b]).2.2.2.1 c3b hfind).1

/-! ## Claim C8: sleeping between candidates -/

/-- Recognizer for sleep events. -/
def isSleepEv : BeaconEvent → Bool
  | .slept _ => true
  | _ => false

/-- Recognizer for SMTP-verification events. -/
def isCheckEv : BeaconEvent → Bool
  | .smtpChecked _ => true
  | _ => false

/-- The shape of the step-4 event trace: per candidate, either an assessment
alone (verification skipped or the candidate domain-filtered), or an
assessment followed by an SMTP verification followed immediately by one
sleep. -/
inductive SleepShape : List BeaconEvent → Prop where
  | nil : SleepShape []
  | skip (e : String) (rest : List BeaconEvent) :
      SleepShape rest → SleepShape (.assessed e :: rest)
  | verified (e : String) (d : ℚ) (rest : List BeaconEvent) :
      SleepShape rest → SleepShape (.assessed e :: .smtpChecked e :: .slept d :: rest)

theorem runCandidates_sleep_shape (ctx : BCtx) (smtp : String → SmtpCall) (draw : Nat → ℚ) :
    ∀ (cands : List String) (k : Nat),
    SleepShape (runCandidates ctx smtp draw cands k).2 ∧
    (runCandidates ctx smtp draw cands k).2.countP isSleepEv
      = (runCandidates ctx smtp draw cands k).2.countP isCheckEv ∧
    (∀ d, BeaconEvent.slept d ∈ (runCandidates ctx smtp draw cands k).2 →
      ∃ n, d = sleepDuration ctx.st (draw n)) := by
  intro cands
  induction cands with
  | nil =>
      intro k
      refine ⟨SleepShape.nil, rfl, ?_⟩
      intro d hd
      simp [runCandidates] at hd
  | cons e rest ih =>
      intro k
      simp only [runCandidates]
      by_cases hok : ctx.st.emailOk e = false
      · rw [if_pos hok]
        exact ih k
      · rw [if_neg hok]
        by_cases hskip : domainSkip (candidateFlags ctx e) = true
        · rw [if_pos hskip]
          dsimp only
          obtain ⟨h1, h2, h3⟩ := ih k
          refine ⟨SleepShape.skip e _ h1, ?_, ?_⟩
          · simp [List.countP_cons, isSleepEv, isCheckEv, h2]
          · intro d hd
            rcases List.mem_cons.mp hd with h | h
            · exact BeaconEvent.noConfusion h
            · exact h3 d h
        · rw [if_neg hskip]
          dsimp only
          by_cases hsv : shouldVerifySmtp (candidateFlags ctx e) = true
          · rw [if_pos hsv, if_pos hsv]
            obtain ⟨h1, h2, h3⟩ := ih (k + 1)
            refine ⟨?_, ?_, ?_⟩
            · exact SleepShape.verified e _ _ h1
            · simp [List.countP_cons, isSleepEv, isCheckEv, h2]
            · intro d hd
              rcases List.mem_cons.mp hd with h | h
              · exact BeaconEvent.noConfusion h
              · rcases List.mem_cons.mp h with h | h
                · exact BeaconEvent.noConfusion h
                · rcases List.mem_cons.mp h with h | h
                  · exact ⟨k, BeaconEvent.slept.inj h⟩
                  · exact h3 d h
          · rw [if_neg hsv, if_neg hsv]
            obtain ⟨h1, h2, h3⟩ := ih k
            refine ⟨SleepShape.skip e _ h1, ?_, ?_⟩
            · simp [List.countP_cons, isSleepEv, isCheckEv, h2]
            · intro d hd
              rcases List.mem_cons.mp hd with h | h
              · exact BeaconEvent.noConfusion h
              · exact h3 d h

/-- C8 (amended): in `find_email`, the orchestrator sleeps only after
candidates whose SMTP verification was performed — one sleep, drawn from
`[min_sleep, max_sleep]`, immediately after each verification — and
proceeds directly to the next candidate when verification was skipped.
Amended from the claim: the sleep is inside `if should_verify_smtp:`, so a
skipped verification is followed by no sleep at all. -/
theorem sleep_only_after_verification (st : BSettings) (first last domain : String)
    (patterns scrapedRaw : List String) (smtp : String → SmtpCall) (draw : Nat → ℚ)
    (hrange : ∀ n, st.minSleep ≤ draw n ∧ draw n ≤ st.maxSleep)
    (hms : st.minSleep ≤ st.maxSleep) :
    SleepShape (find_email st first last domain patterns scrapedRaw smtp draw).2 ∧
    (find_email st first last domain patterns scrapedRaw smtp draw).2.countP isSleepEv
      = (find_email st first last domain patterns scrapedRaw smtp draw).2.countP isCheckEv ∧
    (∀ d, BeaconEvent.slept d ∈ (find_email st first last domain patterns scrapedRaw smtp draw).2 →
      st.minSleep ≤ d ∧ d ≤ st.maxSleep) := by
  obtain ⟨h1, h2, h3⟩ := runCandidates_sleep_shape
    ⟨st, lowerStr first, lowerStr last, domain, patterns, scrapedFilter st domain scrapedRaw⟩
    smtp draw
    (buildCandidates (lowerStr first) (lowerStr last) patterns
      (scrapedFilter st domain scrapedRaw)) 0
  refine ⟨h1, h2, ?_⟩
  intro d hd
  obtain ⟨n, hn⟩ := h3 d hd
  rw [hn]
  simp only [sleepDuration]
  split_ifs
  · exact hrange n
  · exact ⟨le_refl _, hms⟩

/-- C8 counterexample oracle: SMTP always inconclusive (irrelevant, since
verification is skipped for these candidates). -/
def c8smtp : String → SmtpCall := fun _ => .ret none "inconclusive" false

/-- C8 (counterexample to the claim as stated): two low-confidence pattern
candidates are both assessed with their verification skipped, and the trace
contains no sleep at all — in particular no sleep between the first
(skipped) candidate and the assessment of the next — contradicting the
claim that the orchestrator sleeps after each candidate whether
verification was performed or skipped. -/
theorem sleep_skipped_counterexample :
    (find_email c5st "alice" "smith" "d.com" ["info1@d.com", "info2@d.com"] [] c8smtp
        (fun _ => 0)).2
      = [.assessed "info1@d.com", .assessed "info2@d.com"] ∧
    shouldVerifySmtp (candidateFlags
        ⟨c5st, "alice", "smith", "d.com", ["info1@d.com", "info2@d.com"], []⟩
        "info1@d.com") = false ∧
    (∀ d, BeaconEvent.slept d
      ∉ (find_email c5st "alice" "smith" "d.com" ["info1@d.com", "info2@d.com"] [] c8smtp
          (fun _ => 0)).2) := by
  refine ⟨?_, by decide, ?_⟩
  · simp +decide [find_email, buildCandidates, nameInLocal, addCandidate, scrapedFilter,
      runCandidates, recordFor, candidateFlags, is_generic_local, domainSkip, shouldVerifySmtp,
      base_confidence, final_confidence, adjust_confidence, callAdjust, callStatus, callMessage,
      lowerStr, lowerChar, beforeFirst, afterFirst, containsStr, containsSub, sleepDuration,
      c5st, c8smtp]
  · intro d hd
    rw [show (find_email c5st "alice" "smith" "d.com" ["info1@d.com", "info2@d.com"] [] c8smtp
        (fun _ => 0)).2 = [.assessed "info1@d.com", .assessed "info2@d.com"] by
      simp +decide [find_email, buildCandidates, nameInLocal, addCandidate, scrapedFilter,
        runCandidates, recordFor, candidateFlags, is_generic_local, domainSkip, shouldVerifySmtp,
        base_confidence, final_confidence, adjust_confidence, callAdjust, callStatus, callMessage,
        lowerStr, lowerChar, beforeFirst, afterFirst, containsStr, containsSub, sleepDuration,
        c5st, c8smtp]] at hd
    simp at hd

/-- C8 witness settings: sleep range `[1, 2]`. -/
def c8wst : BSettings := ⟨[], fun _ => true, 4, 7, 1, 2⟩

/-- C8 witness: the amended theorem applied with a concrete draw `3/2`. -/
theorem sleep_only_after_verification_witness :
    SleepShape (find_email c8wst "alice" "smith" "d.com" ["alice@d.com"] [] c5smtp
      (fun _ => (3 : ℚ)/2)).2 :=
  (sleep_only_after_verification c8wst "alice" "smith" "d.com" ["alice@d.com"] [] c5smtp
    (fun _ => (3 : ℚ)/2)
    (fun _ => ⟨by norm_num [c8wst], by norm_num [c8wst]⟩)
    (by norm_num [c8wst])).1

/-! ## Domain extraction (`domain_utils.py`), claim C9

`urlparse` is modelled on its ASCII fragment: after the scheme-prepending
step the string starts with `http://` or `https://`; `netloc` is the text
between the `//` and the first of `/`, `?`, `#`; mismatched square brackets
in the netloc raise `ValueError` (Python's invalid-IPv6 check), which
`extract_domain` converts to `DomainExtractionError`. -/

/-- Outcome of `extract_domain`: a domain, or a `DomainExtractionError`
message. -/
inductive DomainResult where
  | ok (domain : String)
  | err (message : String)
deriving DecidableEq, Repr

/-- The scheme-prepending step shared by `extract_domain` and
`normalize_url`. -/
def addScheme (s : String) : String :=
  if hasPrefixStr s "http://" || hasPrefixStr s "https://" then s else "https://" ++ s

/-- The text after the scheme's `//` (the argument always carries one of the
two schemes by construction). -/
def schemeRest (u : String) : String :=
  if hasPrefixStr u "https://" then strDrop u 8
  else if hasPrefixStr u "http://" then strDrop u 7
  else u

/-- Whether a character terminates the netloc in `urlsplit`. -/
def isNetlocEnd (c : Char) : Bool := c == '/' || c == '?' || c == '#'

/-- Model of `urlparse(u).netloc` with Python's mismatched-bracket
`ValueError`. -/
def parseNetloc (u : String) : Except String String :=
  let netloc : String := ⟨(schemeRest u).data.takeWhile (fun c => !isNetlocEnd c)⟩
  if (netloc.data.contains '[' && !netloc.data.contains ']')
      || (netloc.data.contains ']' && !netloc.data.contains '[') then
    .error "Invalid IPv6 URL"
  else .ok netloc

/-- The port-stripping step `host.split(":", 1)[0]` (text before the first
colon; the whole host when there is none). -/
def stripPort (host : String) : String :=
  ⟨host.data.takeWhile (fun c => c ≠ ':')⟩

/-- Translation of `extract_domain`: empty input fails; prepend a scheme if
missing; take the netloc (the hostname fallback adds nothing, since it is
empty whenever the netloc is); strip the port, remove one leading `www.`
case-sensitively, lowercase; an empty result at either stage fails. -/
def extract_domain (s : String) : DomainResult :=
  if s = "" then .err "Input URL string is empty"
  else
    let u := addScheme s
    match parseNetloc u with
    | .error _ => .err ("Could not parse URL: " ++ u)
    | .ok netloc =>
        if netloc = "" then .err ("Could not extract host from parsed URL: " ++ u)
        else
          let domain := removePrefixStr (stripPort netloc) "www."
          let finalDomain := lowerStr domain
          if finalDomain = "" then .err ("Extracted domain is empty for URL: " ++ s)
          else .ok finalDomain

/-- C9 (counterexample to the claim as stated): on input `WWW.example.com`
the `www.` strip runs before lowercasing and is case-sensitive, so the
uppercase prefix survives and the returned domain begins with `www.`,
contradicting the claim that the result never does. -/
theorem extract_domain_www_counterexample :
    extract_domain "WWW.example.com" = .ok "www.example.com" ∧
    hasPrefixStr "www.example.com" "www." = true := by
  constructor
  · decide
  · decide

/-- C9 (amended): for non-empty input, `extract_domain` returns the netloc
of the scheme-completed URL with the text from the first colon removed, one
leading `www.` removed case-sensitively before lowercasing (so the result
can still begin with `www.` when the input carries an uppercase `WWW.`),
then lowercased; and it fails with `DomainExtractionError` exactly when the
input is empty, the URL cannot be parsed, the netloc is empty, or the final
domain is empty. -/
theorem extract_domain_spec (s : String) :
    (s = "" → extract_domain s = .err "Input URL string is empty") ∧
    (∀ netloc, s ≠ "" → parseNetloc (addScheme s) = .ok netloc → netloc ≠ "" →
      lowerStr (removePrefixStr (stripPort netloc) "www.") ≠ "" →
      extract_domain s = .ok (lowerStr (removePrefixStr (stripPort netloc) "www."))) ∧
    (∀ e, s ≠ "" → parseNetloc (addScheme s) = .error e →
      extract_domain s = .err ("Could not parse URL: " ++ addScheme s)) ∧
    (s ≠ "" → parseNetloc (addScheme s) = .ok "" →
      extract_domain s = .err ("Could not extract host from parsed URL: " ++ addScheme s)) ∧
    (∀ netloc, s ≠ "" → parseNetloc (addScheme s) = .ok netloc → netloc ≠ "" →
      lowerStr (removePrefixStr (stripPort netloc) "www.") = "" →
      extract_domain s = .err ("Extracted domain is empty for URL: " ++ s)) := by
  refine ⟨?_, ?_, ?_, ?_, ?_⟩
  · intro h
    simp only [extract_domain, if_pos h]
  · intro netloc hne hok hnl hfd
    simp only [extract_domain, if_neg hne, hok]
    rw [if_neg hnl, if_neg hfd]
  · intro e hne herr
    simp only [extract_domain, if_neg hne, herr]
  · intro hne hok
    simp only [extract_domain, if_neg hne, hok]
    rw [if_pos trivial]
  · intro netloc hne hok hnl hfd
    simp only [extract_domain, if_neg hne, hok]
    rw [if_neg hnl, if_pos hfd]

/-- C9 witness: the amended characterization applied to
`www.Foo.com:8080/bar`: the port goes, the lowercase `www.` prefix goes,
the rest is lowercased. -/
theorem extract_domain_spec_witness :
    extract_domain "www.Foo.com:8080/bar" = .ok "foo.com" := by
  have h := (extract_domain_spec "www.Foo.com:8080/bar").2.1 "www.Foo.com:8080"
    (by decide) (by rfl) (by decide) (by decide)
  exact h.trans (by decide)

end MailBeacon
